import Mathlib

/-!
Verification of the zerox-ai frontend API layer.

Shallow embedding of src/frontend/src/utils/api.js (request interceptor,
response interceptor with token refresh, streamChat SSE decoder), of the
chat session controller in the Chat page, and of the credential writes in
src/frontend/src/context/AuthContext.jsx.

Machine-level conventions: the browser localStorage pair
(access_token, refresh_token) is a Store of two Option String fields;
JSON.parse is modelled by an executable recursive-descent JSON reader;
callback invocations of streamChat are modelled as an emitted event list.
-/

namespace ZeroxAI

/-- JavaScript JSON values, as produced by JSON.parse on the payloads the
stream protocol uses: null, booleans, integers, strings, arrays, objects. -/
inductive JValue where
  | jnull : JValue
  | jbool : Bool → JValue
  | jnum : Int → JValue
  | jstr : String → JValue
  | jarr : List JValue → JValue
  | jobj : List (String × JValue) → JValue

namespace JsonRead

/-- Drop leading JSON whitespace characters. -/
def skipWs : List Char → List Char
  | c :: rest =>
      if c = ' ' ∨ c = '\t' ∨ c = '\n' ∨ c = '\r' then skipWs rest else c :: rest
  | [] => []

/-- Translate a JSON string escape character to the character it denotes;
none for escapes the model does not cover. -/
def unescape (c : Char) : Option Char :=
  if c = '"' then some '"'
  else if c = '\\' then some '\\'
  else if c = '/' then some '/'
  else if c = 'n' then some '\n'
  else if c = 't' then some '\t'
  else if c = 'r' then some '\r'
  else if c = 'b' then some (Char.ofNat 8)
  else if c = 'f' then some (Char.ofNat 12)
  else none

/-- Read the body of a JSON string literal after the opening quote, up to the
closing quote; returns the decoded text and the remaining input. -/
def readStr : List Char → List Char → Option (String × List Char)
  | acc, '"' :: rest => some (String.mk acc.reverse, rest)
  | acc, '\\' :: c :: rest =>
      match unescape c with
      | some d => readStr (d :: acc) rest
      | none => none
  | _, ['\\'] => none
  | acc, c :: rest => readStr (c :: acc) rest
  | _, [] => none

/-- Read a run of decimal digits, returning the accumulated value and the rest. -/
def readDigits : Nat → List Char → Nat × List Char
  | acc, c :: rest =>
      if c.isDigit then readDigits (acc * 10 + (c.toNat - 48)) rest
      else (acc, c :: rest)
  | acc, [] => (acc, [])

mutual

/-- Read one JSON value from the input; fuel bounds the recursion depth. -/
def readValue : Nat → List Char → Option (JValue × List Char)
  | 0, _ => none
  | fuel + 1, input =>
    match skipWs input with
    | '"' :: rest =>
        match readStr [] rest with
        | some (s, rest2) => some (JValue.jstr s, rest2)
        | none => none
    | '{' :: rest =>
        (match skipWs rest with
         | '}' :: rest2 => some (JValue.jobj [], rest2)
         | rest2 => readMembers fuel rest2 [])
    | '[' :: rest =>
        (match skipWs rest with
         | ']' :: rest2 => some (JValue.jarr [], rest2)
         | rest2 => readElems fuel rest2 [])
    | 't' :: 'r' :: 'u' :: 'e' :: rest => some (JValue.jbool true, rest)
    | 'f' :: 'a' :: 'l' :: 's' :: 'e' :: rest => some (JValue.jbool false, rest)
    | 'n' :: 'u' :: 'l' :: 'l' :: rest => some (JValue.jnull, rest)
    | '-' :: c :: rest =>
        if c.isDigit then
          let (n, rest2) := readDigits (c.toNat - 48) rest
          some (JValue.jnum (-(n : Int)), rest2)
        else none
    | c :: rest =>
        if c.isDigit then
          let (n, rest2) := readDigits (c.toNat - 48) rest
          some (JValue.jnum (n : Int), rest2)
        else none
    | [] => none

/-- Read the members of a JSON object after the opening brace (nonempty case),
including the closing brace. -/
def readMembers : Nat → List Char → List (String × JValue) →
    Option (JValue × List Char)
  | 0, _, _ => none
  | fuel + 1, input, acc =>
    match skipWs input with
    | '"' :: rest =>
        match readStr [] rest with
        | some (k, rest2) =>
            (match skipWs rest2 with
             | ':' :: rest3 =>
                 match readValue fuel rest3 with
                 | some (v, rest4) =>
                     (match skipWs rest4 with
                      | ',' :: rest5 => readMembers fuel rest5 ((k, v) :: acc)
                      | '}' :: rest5 => some (JValue.jobj ((k, v) :: acc).reverse, rest5)
                      | _ => none)
                 | none => none
             | _ => none)
        | none => none
    | _ => none

/-- Read the elements of a JSON array after the opening bracket (nonempty
case), including the closing bracket. -/
def readElems : Nat → List Char → List JValue → Option (JValue × List Char)
  | 0, _, _ => none
  | fuel + 1, input, acc =>
    match readValue fuel input with
    | some (v, rest) =>
        (match skipWs rest with
         | ',' :: rest2 => readElems fuel rest2 (v :: acc)
         | ']' :: rest2 => some (JValue.jarr (v :: acc).reverse, rest2)
         | _ => none)
    | none => none

end

end JsonRead

/-- Model of JSON.parse: reads one JSON value and rejects trailing garbage
and truncated input. -/
def jsonParse (s : String) : Option JValue :=
  match JsonRead.readValue (2 * s.length + 2) s.data with
  | some (v, rest) =>
      match JsonRead.skipWs rest with
      | [] => some v
      | _ => none
  | none => none

/-- Property access data.k on a parsed JSON value: defined on objects (with
JSON.parse last-wins duplicate keys, so the last binding is returned), and
undefined (none) on every other value. -/
def getField (v : JValue) (k : String) : Option JValue :=
  match v with
  | JValue.jobj fields =>
      fields.foldl (fun acc kv => if kv.1 = k then some kv.2 else acc) none
  | _ => none

/-- JavaScript truthiness of a possibly-undefined value: undefined, null,
false, 0 and the empty string are falsy, everything else truthy. -/
def truthy : Option JValue → Bool
  | none => false
  | some JValue.jnull => false
  | some (JValue.jbool b) => b
  | some (JValue.jnum n) => !(n = 0)
  | some (JValue.jstr s) => !(s = "")
  | some (JValue.jarr _) => true
  | some (JValue.jobj _) => true

/-- JavaScript string coercion of a value, as used when a value is
concatenated onto a string with +=. -/
def jToStr : JValue → String
  | JValue.jnull => "null"
  | JValue.jbool b => if b then "true" else "false"
  | JValue.jnum n => toString n
  | JValue.jstr s => s
  | JValue.jarr _ => ""
  | JValue.jobj _ => "[object Object]"

/-- One callback invocation made by the streamChat decoder loop:
onChunk(data.content), onDone(data.conversation_id) or onError(data.error). -/
inductive Ev where
  | chunk : JValue → Ev
  | done : Option JValue → Ev
  | errorEv : JValue → Ev

/-- The check line.startsWith "data: " combined with line.slice(6): the
payload after the event prefix, or none when the prefix is absent. -/
def stripData (line : String) : Option String :=
  match line.data with
  | 'd' :: 'a' :: 't' :: 'a' :: ':' :: ' ' :: rest => some (String.mk rest)
  | _ => none

/-- Decoding of one physical line by streamChat (api.js lines 122-138):
lines carrying the "data: " prefix have the remainder fed to JSON.parse;
parse failures are swallowed by the try/catch and emit nothing; on success
the three truthiness tests on content, done and error each fire their
callback, in that order. Lines without the prefix emit nothing. -/
def lineEvents (line : String) : List Ev :=
  match stripData line with
  | none => []
  | some payload =>
    match jsonParse payload with
    | none => []
    | some v =>
        (match getField v "content" with
         | some c => if truthy (some c) then [Ev.chunk c] else []
         | none => []) ++
        (if truthy (getField v "done") then [Ev.done (getField v "conversation_id")]
         else []) ++
        (match getField v "error" with
         | some e => if truthy (some e) then [Ev.errorEv e] else []
         | none => [])

/-- JavaScript single-character split: chunk.split(newline). The final
segment (possibly empty) is always produced, matching Array semantics of
String.prototype.split. -/
def splitNlAux : List Char → List Char → List String
  | [], acc => [String.mk acc.reverse]
  | c :: rest, acc =>
      if c = '\n' then String.mk acc.reverse :: splitNlAux rest []
      else splitNlAux rest (c :: acc)

def splitNl (s : String) : List String :=
  splitNlAux s.data []

/-- Decoding of one read chunk by streamChat (api.js lines 119-139): the
decoded text is split on newline characters and each resulting line is
processed independently; no remainder is carried over to the next read. -/
def chunkEvents (chunk : String) : List Ev :=
  ((splitNl chunk).map lineEvents).flatten

/-- Events emitted by the whole streamChat read loop (api.js lines 115-140)
for a given sequence of read chunks: each chunk is decoded and processed
in isolation, in arrival order. -/
def streamEvents (chunks : List String) : List Ev :=
  (chunks.map chunkEvents).flatten

/-- The Credential Store: the localStorage pair access_token / refresh_token.
getItem returns null (none) for an absent key. -/
structure Store where
  access : Option String
  refresh : Option String
  deriving DecidableEq, Repr

/-- JavaScript template-literal coercion of a possibly-null string, as in
Bearer interpolation: null becomes the text "null". -/
def jsValueText : Option String → String
  | some t => t
  | none => "null"

/-- JavaScript object property assignment on a header map: overwrite the
existing entry for the key or append a new one. -/
def setHeader : List (String × String) → String → String → List (String × String)
  | [], k, v => [(k, v)]
  | kv :: rest, k, v => if kv.1 = k then (k, v) :: rest else kv :: setHeader rest k v

/-- First-match lookup of a header value. -/
def lookupHeader (headers : List (String × String)) (k : String) : Option String :=
  (headers.find? (fun kv => kv.1 = k)).map Prod.snd

/-- The default headers of the axios instance (api.js lines 5-10). -/
def baseHeaders : List (String × String) :=
  [("Content-Type", "application/json")]

/-- The request interceptor (api.js lines 13-22): read the access credential;
when one is present set the Authorization header to Bearer plus the token,
otherwise leave the configuration untouched. -/
def requestInterceptor (store : Store) (headers : List (String × String)) :
    List (String × String) :=
  match store.access with
  | some t => setHeader headers "Authorization" ("Bearer " ++ t)
  | none => headers

/-- The headers streamChat builds for its fetch call (api.js lines 95-104):
the Authorization header is written unconditionally, interpolating the
result of getItem even when it is null. -/
def streamChatHeaders (store : Store) : List (String × String) :=
  [("Content-Type", "application/json"),
   ("Authorization", "Bearer " ++ jsValueText store.access)]

/-- A call descriptor: the axios request config, with the _retry marker the
response interceptor stamps on it and its header map. -/
structure Descriptor where
  retried : Bool
  headers : List (String × String)
  deriving DecidableEq, Repr

/-- Settlement of one dispatched call: fulfilled response or rejection with
the HTTP status of the error response. -/
inductive Outcome where
  | success : Outcome
  | failure : Nat → Outcome
  deriving DecidableEq, Repr

/-- Observable result of running a call through the dispatcher: the final
credential store, whether the browser was routed to /login, how many refresh
exchanges were performed, and the settlement. -/
structure CallResult where
  store : Store
  redirected : Bool
  refreshCount : Nat
  outcome : Outcome
  deriving DecidableEq, Repr

/-- Axios fulfils a response exactly when its status is in the 2xx range
(default validateStatus). -/
def isOk (status : Nat) : Bool :=
  decide (200 ≤ status) && decide (status < 300)

/-- One call through the api instance with its response interceptor
(api.js lines 25-56). The environment supplies the server status for each
successive transmission of the descriptor and the outcome of the refresh
exchange (a new credential pair, or an HTTP failure status). On a 401 with
_retry unset: stamp _retry, read the refresh credential; if absent fall
through to rejecting the original error; otherwise run the refresh exchange
on the bare axios client (not through these interceptors); on refresh
success write both credentials, rewrite the Authorization header and resend
the descriptor through the same pipeline; on refresh failure clear the store,
route to /login and reject the original error. Every other error status, and
a 401 with _retry already set, is rejected unchanged. -/
def dispatch : Store → Descriptor → List Nat → Except Nat (String × String) →
    CallResult
  | store, _, [], _ => ⟨store, false, 0, Outcome.failure 0⟩
  | store, d, status :: rest, refreshResp =>
    if isOk status then ⟨store, false, 0, Outcome.success⟩
    else if status = 401 && !d.retried then
      match store.refresh with
      | none => ⟨store, false, 0, Outcome.failure status⟩
      | some _ =>
        match refreshResp with
        | Except.ok (a, r) =>
            let newStore : Store := ⟨some a, some r⟩
            let replayed := dispatch newStore
              ⟨true, setHeader d.headers "Authorization" ("Bearer " ++ a)⟩
              rest refreshResp
            { replayed with refreshCount := replayed.refreshCount + 1 }
        | Except.error _ => ⟨⟨none, none⟩, true, 1, Outcome.failure status⟩
    else ⟨store, false, 0, Outcome.failure status⟩

/-- Credential writes of a successful login or register
(AuthContext.jsx lines 41-57 and 59-80): both credentials are stored in one
synchronous sequence with no interleaving read. -/
def loginStoreUpdate (accessToken refreshToken : String) (_ : Store) : Store :=
  ⟨some accessToken, some refreshToken⟩

/-- One chat message of the session controller message list (the Chat page).
The created_at and model_used metadata play no role in any claim and are
elided; id models Date.now(). -/
structure ChatMsg where
  id : Nat
  role : String
  content : String
  deriving DecidableEq, Repr

/-- The chat session controller state (Chat page component state):
message list, the isLoading and isStreaming flags, and the current
conversation selection, which when set carries the adopted conversation
identifier (the id property may itself be undefined). -/
structure Session where
  messages : List ChatMsg
  isLoading : Bool
  isStreaming : Bool
  currentConversation : Option (Option JValue)

/-- The onChunk updater of the Chat page: copy the list, and when the last
message is an assistant message, append the fragment to its content; any
other list is returned unchanged. -/
def appendToLastAssistant : List ChatMsg → String → List ChatMsg
  | [], _ => []
  | [m], c => [if m.role = "assistant" then { m with content := m.content ++ c } else m]
  | m :: m2 :: rest, c => m :: appendToLastAssistant (m2 :: rest) c

/-- The onError updater of the Chat page: replace the content of the last
message when it is an assistant message. -/
def setLastAssistant : List ChatMsg → String → List ChatMsg
  | [], _ => []
  | [m], c => [if m.role = "assistant" then { m with content := c } else m]
  | m :: m2 :: rest, c => m :: setLastAssistant (m2 :: rest) c

/-- Application of one decoded stream event to the session, via the three
callbacks the Chat page passes to streamChat: onChunk appends the coerced
fragment; onDone clears both flags and, when no conversation is current,
adopts the delivered conversation identifier; onError clears both flags and
overwrites the last assistant message with the error text. -/
def applyEv (s : Session) : Ev → Session
  | Ev.chunk c =>
      { s with messages := appendToLastAssistant s.messages (jToStr c) }
  | Ev.done cid =>
      { s with isLoading := false, isStreaming := false,
               currentConversation :=
                 match s.currentConversation with
                 | none => some cid
                 | some x => some x }
  | Ev.errorEv e =>
      { s with isLoading := false, isStreaming := false,
               messages := setLastAssistant s.messages ("Error: " ++ jToStr e) }

/-- The handleSendMessage handler of the Chat page: when a turn is already
in flight (isLoading or isStreaming) return immediately with no effect and
no stream opened; otherwise append the user message, raise both flags,
append the empty assistant placeholder, open the stream and apply its
decoded events in arrival order. The Boolean reports whether a stream was
opened; now models Date.now(). -/
def handleSendMessage (now : Nat) (s : Session) (content : String)
    (events : List Ev) : Session × Bool :=
  if s.isLoading || s.isStreaming then (s, false)
  else
    let userMsg : ChatMsg := ⟨now, "user", content⟩
    let s1 : Session :=
      { s with messages := s.messages ++ [userMsg],
               isLoading := true, isStreaming := true }
    let assistantMsg : ChatMsg := ⟨now + 1, "assistant", ""⟩
    let s2 : Session := { s1 with messages := s1.messages ++ [assistantMsg] }
    (events.foldl applyEv s2, true)

/-! Helper lemmas. -/

theorem splitNlAux_no_nl_append (cs : List Char) (rest : List Char)
    (h : '\n' ∉ cs) (acc : List Char) :
    splitNlAux (cs ++ '\n' :: rest) acc
      = String.mk (acc.reverse ++ cs) :: splitNlAux rest [] := by
  induction cs generalizing acc with
  | nil => simp [splitNlAux]
  | cons c cs2 ih =>
      have hc : ¬ c = '\n' := fun hcn => h (hcn ▸ List.mem_cons_self c cs2)
      have h2 : '\n' ∉ cs2 := fun hm => h (List.mem_cons_of_mem c hm)
      simp [splitNlAux, hc, ih h2]

theorem splitNl_line (l : String) (h : '\n' ∉ l.data) :
    splitNl (l ++ "\n") = [l, ""] := by
  have hd : (l ++ "\n").data = l.data ++ '\n' :: [] := by
    simp [String.data_append]
  simp only [splitNl, hd, splitNlAux_no_nl_append l.data [] h []]
  rfl

theorem chunkEvents_line (l : String) (h : '\n' ∉ l.data) :
    chunkEvents (l ++ "\n") = lineEvents l := by
  simp [chunkEvents, splitNl_line l h, lineEvents, stripData]

theorem appendToLastAssistant_append (ms : List ChatMsg) (i : Nat)
    (t c : String) :
    appendToLastAssistant (ms ++ [⟨i, "assistant", t⟩]) c
      = ms ++ [⟨i, "assistant", t ++ c⟩] := by
  induction ms with
  | nil => simp [appendToLastAssistant]
  | cons m rest ih =>
      cases rest with
      | nil => simp [appendToLastAssistant]
      | cons m2 rest2 =>
          simpa [appendToLastAssistant] using ih

theorem dispatch_retried_no_refresh (s : Store) (hdrs : List (String × String))
    (responses : List Nat) (rr : Except Nat (String × String)) :
    (dispatch s ⟨true, hdrs⟩ responses rr).refreshCount = 0 := by
  cases responses with
  | nil => rfl
  | cons status rest =>
      by_cases h : isOk status = true
      · simp [dispatch, h]
      · simp [dispatch, h]

/-! Claim theorems. -/

/-- Claim C1. The spec requires that an event record split across two reads
(first read ending mid-record, second completing it with the trailing
newline) yields exactly one content frame. The streamChat decoder parses
each physical chunk in isolation with no cross-read remainder buffer, so on
the split delivery of data: followed by a JSON record cut inside the payload
it emits zero frames, while the same record delivered intact in one read
emits the single expected frame. This theorem evaluates the code at the
failing input. -/
theorem c1_split_record_yields_no_frame :
    streamEvents ["data: \x7b\"cont", "ent\":\"hi\"\x7d\n"] = []
    ∧ streamEvents ["data: \x7b\"content\":\"hi\"\x7d\n"]
        = [Ev.chunk (JValue.jstr "hi")] :=
  ⟨rfl, rfl⟩

/-- Claim C4, counterexample. With an empty Credential Store the claim says
the streaming chat call is sent with no Authorization header; streamChat in
fact always writes the header, interpolating null, so the request carries
the literal text Bearer null. -/
theorem c4_counterexample_stream_header_when_absent :
    lookupHeader (streamChatHeaders ⟨none, none⟩) "Authorization"
      = some "Bearer null" := rfl

/-- Claim C4, amended. Requests through the axios dispatcher attach
Authorization: Bearer followed by the access credential exactly when one is
present, and otherwise carry no Authorization header; the streaming call of
streamChat instead always attaches an Authorization header, interpolating
the stored credential or the text null when the store is empty. -/
theorem c4_auth_header_attachment (store : Store) :
    lookupHeader (requestInterceptor store baseHeaders) "Authorization"
      = store.access.map (fun t => "Bearer " ++ t)
    ∧ lookupHeader (streamChatHeaders store) "Authorization"
      = some ("Bearer " ++ jsValueText store.access) := by
  refine ⟨?_, rfl⟩
  cases store with
  | mk a r =>
      cases a with
      | none => rfl
      | some t => rfl

/-- Claim C5, counterexample. A done frame followed in the same stream by a
content frame: the claim says the content frame appends nothing after the
turn settles, but the controller applies it through the same onChunk path
and the assistant message content becomes X instead of staying empty. -/
theorem c5_counterexample_append_after_done :
    (((handleSendMessage 0 ⟨[], false, false, none⟩ "hi"
        (streamEvents
          ["data: \x7b\"done\":true,\"conversation_id\":7\x7d\ndata: \x7b\"content\":\"X\"\x7d\n"])).1).messages
      = [⟨0, "user", "hi"⟩, ⟨1, "assistant", "X"⟩])
    ∧ ((handleSendMessage 0 ⟨[], false, false, none⟩ "hi"
        (streamEvents
          ["data: \x7b\"done\":true,\"conversation_id\":7\x7d\ndata: \x7b\"content\":\"X\"\x7d\n"])).1).isStreaming
      = false :=
  ⟨rfl, rfl⟩

/-- Claim C5, amended. Settlement does not freeze the assistant message: a
content frame decoded after a done frame in the same stream is applied
through the unchanged onChunk path and still appends its fragment to the
last assistant message (a done frame only clears the flags and adopts the
conversation identifier; it leaves the message list mutable). -/
theorem c5_content_frame_after_done_still_appends (s : Session)
    (cid : Option JValue) (c : JValue) (ms : List ChatMsg) (i : Nat)
    (t : String) (h : s.messages = ms ++ [⟨i, "assistant", t⟩]) :
    (applyEv (applyEv s (Ev.done cid)) (Ev.chunk c)).messages
      = ms ++ [⟨i, "assistant", t ++ jToStr c⟩] := by
  have hd : (applyEv s (Ev.done cid)).messages = s.messages := rfl
  simp [applyEv, hd, h, appendToLastAssistant_append]

/-- Claim C5, witness for the amended theorem. -/
theorem c5_witness :
    ([⟨1, "assistant", "A"⟩] : List ChatMsg) = [] ++ [⟨1, "assistant", "A"⟩]
    ∧ (applyEv (applyEv ⟨[⟨1, "assistant", "A"⟩], true, true, none⟩
          (Ev.done none)) (Ev.chunk (JValue.jstr "B"))).messages
        = [] ++ [⟨1, "assistant", "A" ++ jToStr (JValue.jstr "B")⟩] :=
  ⟨rfl, c5_content_frame_after_done_still_appends
    ⟨[⟨1, "assistant", "A"⟩], true, true, none⟩ none (JValue.jstr "B")
    [] 1 "A" rfl⟩

/-- Claim C6. The stream input with content fragments A and B followed by a
completion frame carrying conversation identifier 7, delivered as complete
lines to an idle session with no conversation selected, leaves the assistant
message content exactly AB, adopts conversation identifier 7, and clears
both in-flight flags. -/
theorem c6_fragments_in_order_and_conversation_adopted :
    (((handleSendMessage 0 ⟨[], false, false, none⟩ "hi"
        (streamEvents
          ["data: \x7b\"content\":\"A\"\x7d\ndata: \x7b\"content\":\"B\"\x7d\ndata: \x7b\"done\":true,\"conversation_id\":7\x7d\n"])).1).messages
      = [⟨0, "user", "hi"⟩, ⟨1, "assistant", "AB"⟩])
    ∧ (((handleSendMessage 0 ⟨[], false, false, none⟩ "hi"
        (streamEvents
          ["data: \x7b\"content\":\"A\"\x7d\ndata: \x7b\"content\":\"B\"\x7d\ndata: \x7b\"done\":true,\"conversation_id\":7\x7d\n"])).1).currentConversation
      = some (some (JValue.jnum 7)))
    ∧ (((handleSendMessage 0 ⟨[], false, false, none⟩ "hi"
        (streamEvents
          ["data: \x7b\"content\":\"A\"\x7d\ndata: \x7b\"content\":\"B\"\x7d\ndata: \x7b\"done\":true,\"conversation_id\":7\x7d\n"])).1).isStreaming
      = false) :=
  ⟨rfl, rfl, rfl⟩

/-- Claim C2. For a descriptor not yet retried whose store holds a refresh
credential, a 401 answered by a successful refresh is replayed exactly once;
when the replay is answered by a second 401 the interceptor sees the _retry
stamp, skips any further refresh (refresh count stays 1) and surfaces the
second 401 to the caller as the final failure. -/
theorem c2_second_401_is_final (s : Store) (rt : String)
    (hs : s.refresh = some rt) (hdrs : List (String × String)) (a r : String)
    (rest : List Nat) :
    dispatch s ⟨false, hdrs⟩ (401 :: 401 :: rest) (Except.ok (a, r))
      = ⟨⟨some a, some r⟩, false, 1, Outcome.failure 401⟩ := by
  cases s with
  | mk acc ref =>
      cases hs
      simp [dispatch, isOk]

/-- Claim C2, witness. -/
theorem c2_witness :
    (⟨some "a0", some "r0"⟩ : Store).refresh = some "r0"
    ∧ dispatch ⟨some "a0", some "r0"⟩ ⟨false, baseHeaders⟩ [401, 401]
        (Except.ok ("a1", "r1"))
      = ⟨⟨some "a1", some "r1"⟩, false, 1, Outcome.failure 401⟩ :=
  ⟨rfl, c2_second_401_is_final ⟨some "a0", some "r0"⟩ "r0" rfl baseHeaders
    "a1" "r1" []⟩

/-- Claim C3, counterexample. A 401 on a fresh descriptor with an access
credential present but no refresh credential: the claim says the pair is
cleared and the user is routed to re-authentication, but the interceptor
merely rejects the original error, leaving the store exactly as it was and
performing no redirect. -/
theorem c3_counterexample_store_left_in_place :
    (dispatch ⟨some "tokA", none⟩ ⟨false, baseHeaders⟩ [401] (Except.error 0)
        = ⟨⟨some "tokA", none⟩, false, 0, Outcome.failure 401⟩)
    ∧ ¬ ((dispatch ⟨some "tokA", none⟩ ⟨false, baseHeaders⟩ [401]
            (Except.error 0)).store = ⟨none, none⟩
         ∧ (dispatch ⟨some "tokA", none⟩ ⟨false, baseHeaders⟩ [401]
            (Except.error 0)).redirected = true) :=
  ⟨rfl, by decide⟩

/-- Claim C3, amended. When a 401 arrives on a not-yet-retried descriptor
and the Credential Store holds no refresh credential, the interceptor
rejects the original 401 as the final failure with the store left unchanged
(any access credential stays in place) and no routing to re-authentication;
the clear-and-redirect path runs only when a refresh credential exists and
the refresh exchange itself fails. -/
theorem c3_no_refresh_credential_rejects_in_place (acc : Option String)
    (hdrs : List (String × String)) (rest : List Nat)
    (rr : Except Nat (String × String)) :
    dispatch ⟨acc, none⟩ ⟨false, hdrs⟩ (401 :: rest) rr
      = ⟨⟨acc, none⟩, false, 0, Outcome.failure 401⟩ := by
  simp [dispatch, isOk]

/-- Claim C7. A stream carrying a valid content line, then a line whose
payload fails to parse, then another valid content line delivers both valid
frames in order; the malformed line is swallowed by the per-line try/catch,
produces no callback, and does not abort the loop. -/
theorem c7_malformed_line_between_frames (l1 bad l2 : String) (a b : JValue)
    (pbad : String) (h1 : lineEvents l1 = [Ev.chunk a])
    (h2 : lineEvents l2 = [Ev.chunk b]) (hb1 : stripData bad = some pbad)
    (hb2 : jsonParse pbad = none) (hn1 : '\n' ∉ l1.data)
    (hnb : '\n' ∉ bad.data) (hn2 : '\n' ∉ l2.data) :
    streamEvents [l1 ++ "\n", bad ++ "\n", l2 ++ "\n"]
      = [Ev.chunk a, Ev.chunk b] := by
  have hbad : lineEvents bad = [] := by simp [lineEvents, hb1, hb2]
  simp [streamEvents, chunkEvents_line l1 hn1, chunkEvents_line bad hnb,
        chunkEvents_line l2 hn2, h1, h2, hbad]

/-- Claim C7, witness. -/
theorem c7_witness :
    lineEvents "data: \x7b\"content\":\"A\"\x7d" = [Ev.chunk (JValue.jstr "A")]
    ∧ lineEvents "data: \x7b\"content\":\"B\"\x7d" = [Ev.chunk (JValue.jstr "B")]
    ∧ stripData "data: \x7bbroken" = some "\x7bbroken"
    ∧ jsonParse "\x7bbroken" = none
    ∧ streamEvents ["data: \x7b\"content\":\"A\"\x7d" ++ "\n",
        "data: \x7bbroken" ++ "\n", "data: \x7b\"content\":\"B\"\x7d" ++ "\n"]
      = [Ev.chunk (JValue.jstr "A"), Ev.chunk (JValue.jstr "B")] :=
  ⟨rfl, rfl, rfl, rfl,
    c7_malformed_line_between_frames "data: \x7b\"content\":\"A\"\x7d"
      "data: \x7bbroken" "data: \x7b\"content\":\"B\"\x7d"
      (JValue.jstr "A") (JValue.jstr "B") "\x7bbroken" rfl rfl rfl rfl
      (by decide) (by decide) (by decide)⟩

/-- Claim C9. A turn submitted while the session is Sending or Streaming is
rejected with no effect: the state is returned untouched and no stream is
opened; once the in-flight turn settles through a done or an error frame
both flags are cleared and a subsequent submission opens a stream again. -/
theorem c9_busy_session_rejects_new_turn (now now2 : Nat) (s : Session)
    (content content2 : String) (events events2 : List Ev)
    (h : s.isLoading = true ∨ s.isStreaming = true) :
    handleSendMessage now s content events = (s, false)
    ∧ (∀ cid, (handleSendMessage now2 (applyEv s (Ev.done cid)) content2
          events2).2 = true)
    ∧ (∀ e, (handleSendMessage now2 (applyEv s (Ev.errorEv e)) content2
          events2).2 = true) := by
  refine ⟨?_, fun cid => rfl, fun e => rfl⟩
  rcases h with h | h <;> simp [handleSendMessage, h]

/-- Claim C9, witness. -/
theorem c9_witness :
    ((⟨[], true, true, none⟩ : Session).isLoading = true
      ∨ (⟨[], true, true, none⟩ : Session).isStreaming = true)
    ∧ (handleSendMessage 5 ⟨[], true, true, none⟩ "x" []
        = (⟨[], true, true, none⟩, false)
       ∧ (∀ cid, (handleSendMessage 6 (applyEv ⟨[], true, true, none⟩
            (Ev.done cid)) "y" []).2 = true)
       ∧ (∀ e, (handleSendMessage 6 (applyEv ⟨[], true, true, none⟩
            (Ev.errorEv e)) "y" []).2 = true)) :=
  ⟨Or.inl rfl, c9_busy_session_rejects_new_turn 5 6 ⟨[], true, true, none⟩
    "x" "y" [] [] (Or.inl rfl)⟩

/-- Claim C10. The refresh exchange is a direct axios.post on the bare
client, modelled as an environment outcome that never re-enters the
interceptor pipeline; together with the _retry stamp this bounds the number
of refresh exchanges any one descriptor can cause to at most one, for every
response sequence and every refresh outcome, including a 401 from the
refresh endpoint itself (which lands in the catch block, clears the store
and redirects, rather than triggering a nested refresh). -/
theorem c10_refresh_chain_bounded (s : Store) (d : Descriptor)
    (responses : List Nat) (rr : Except Nat (String × String)) :
    (dispatch s d responses rr).refreshCount ≤ 1 := by
  cases responses with
  | nil => simp [dispatch]
  | cons status rest =>
      by_cases h1 : isOk status = true
      · simp [dispatch, h1]
      · by_cases h2 : (status = 401 && !d.retried) = true
        · cases hr : s.refresh with
          | none => simp [dispatch, h1, h2, hr]
          | some rt =>
              cases rr with
              | error e => simp [dispatch, h1, h2, hr]
              | ok pr =>
                  cases pr with
                  | mk a r =>
                      simp [dispatch, h1, h2, hr, dispatch_retried_no_refresh]
        · simp [dispatch, h1, h2]

theorem dispatch_store_cases (responses : List Nat) (s : Store)
    (d : Descriptor) (rr : Except Nat (String × String)) :
    (dispatch s d responses rr).store = s
    ∨ (∃ a r, rr = Except.ok (a, r)
        ∧ (dispatch s d responses rr).store = ⟨some a, some r⟩)
    ∨ (dispatch s d responses rr).store = ⟨none, none⟩ := by
  induction responses generalizing s d with
  | nil => exact Or.inl rfl
  | cons status rest ih =>
      by_cases h1 : isOk status = true
      · simp [dispatch, h1]
      · by_cases h2 : (status = 401 && !d.retried) = true
        · cases hr : s.refresh with
          | none => simp [dispatch, h1, h2, hr]
          | some rt =>
              cases rr with
              | error e => simp [dispatch, h1, h2, hr]
              | ok pr =>
                  cases pr with
                  | mk a r =>
                      have hrec := ih ⟨some a, some r⟩
                        ⟨true, setHeader d.headers "Authorization"
                          ("Bearer " ++ a)⟩
                      simp only [dispatch, h1, h2, hr]
                      simp only [Bool.not_eq_true] at h1
                      simp [h1, h2]
                      rcases hrec with hst | ⟨a2, r2, he, hst⟩ | hst
                      · exact Or.inr (Or.inl ⟨a, r, ⟨rfl, rfl⟩, hst⟩)
                      · simp only [Except.ok.injEq, Prod.mk.injEq] at he
                        rcases he with ⟨ha, hr2⟩
                        subst ha; subst hr2
                        exact Or.inr (Or.inl ⟨a, r, ⟨rfl, rfl⟩, hst⟩)
                      · exact Or.inr (Or.inr hst)
        · simp [dispatch, h1, h2]

/-- Claim C8. A successful refresh writes the access and refresh credentials
as one joint update: every store a call lifecycle can observe is either the
pre-refresh pair, the complete new pair delivered by the refresh exchange,
or the fully cleared store — never an access credential from one pair next
to a refresh credential from another; and a successful login likewise
installs both credentials together. -/
theorem c8_credentials_updated_together (s : Store) (d : Descriptor)
    (responses : List Nat) (rr : Except Nat (String × String)) :
    ((dispatch s d responses rr).store = s
     ∨ (∃ a r, rr = Except.ok (a, r)
         ∧ (dispatch s d responses rr).store = ⟨some a, some r⟩)
     ∨ (dispatch s d responses rr).store = ⟨none, none⟩)
    ∧ (∀ a r s2, loginStoreUpdate a r s2 = ⟨some a, some r⟩) :=
  ⟨dispatch_store_cases responses s d rr, fun _ _ _ => rfl⟩

end ZeroxAI
